import Mathlib

set_option maxHeartbeats 1000000

/-
Shallow embedding of the docker-heatmap backend core
(src/backend/internal/services/docker_service.go, and the second services
variant embedded in src/backend/internal/handlers/heatmap.go), together with
the manual-sync handler (src/backend/internal/handlers/docker.go).

Machine integers are modelled as Nat; the float64 ratio in calculateLevel is
modelled as the exact rational count/maxCount (the thresholds 0.75, 0.5, 0.25
are exactly representable in binary, and the comparison structure is
otherwise identical).  Timestamps are modelled as a calendar-day index plus a
seconds-of-day component; normalising to midnight UTC keeps the day index.
The GORM-backed tables are modelled as lists in insertion (primary-key)
order; a Where(...).First query is List.find?, a Save of a fetched row is an
in-place update by id.
-/

namespace DockerHeatmap

/-- Event kinds of models.EventType: push, pull, build. -/
inductive EventType where
  | push
  | pull
  | build
deriving DecidableEq, Repr

/-- A UTC instant, split into a calendar-day index and seconds into the day
(time.Time restricted to what the core inspects). -/
structure UTCTime where
  day : Nat
  secOfDay : Nat
deriving DecidableEq, Repr

/-- Normalisation of createActivity: time.Date(Y,M,D,0,0,0,0,UTC) keeps only
the calendar day. -/
def normalizeToMidnightUTC (t : UTCTime) : Nat := t.day

/-- A row of the activity_events table (models.ActivityEvent): owning
account, event kind, normalised calendar day, repository, tag, count. -/
structure ActivityEvent where
  dockerAccountID : Nat
  eventType : EventType
  eventDate : Nat
  repository : String
  tag : String
  count : Nat
deriving DecidableEq, Repr

/-- A row of the docker_accounts table (models.DockerAccount), restricted to
the fields the sync core reads or writes. -/
structure DockerAccount where
  id : Nat
  userId : Nat
  dockerUsername : String
  syncInProgress : Bool
  lastSyncAt : Option Nat
  lastSyncError : String
deriving DecidableEq, Repr

/-- One element of the aggregated per-day series (models.ActivitySummary). -/
structure ActivitySummary where
  date : Nat
  totalCount : Nat
  pushes : Nat
  pulls : Nat
  builds : Nat
  level : Nat
deriving DecidableEq, Repr

/-- The persistent state the sync and read paths touch: the docker_accounts
and activity_events tables, each in primary-key (insertion) order. -/
structure ServerState where
  accounts : List DockerAccount
  events : List ActivityEvent
deriving DecidableEq, Repr

/-- The WHERE clause of createActivity's duplicate lookup:
docker_account_id = ? AND event_date = ? AND repository = ? AND tag = ?
(note: event_type is not part of the clause). -/
def keyMatch (accountID evDay : Nat) (repo tag : String) (e : ActivityEvent) : Bool :=
  e.dockerAccountID == accountID && e.eventDate == evDay &&
    e.repository == repo && e.tag == tag

/-- GORM Save of the row found by First: the first row satisfying the
predicate gets its count incremented, the rest are unchanged. -/
def incrementFirst (p : ActivityEvent → Bool) : List ActivityEvent → List ActivityEvent
  | [] => []
  | e :: es => if p e then { e with count := e.count + 1 } :: es else e :: incrementFirst p es

/-- createActivity (docker_service.go:175-197 and heatmap.go:924-964, the two
variants are identical): normalise the timestamp to midnight UTC, look up a
row with the same (account, day, repository, tag); if found increment its
count and return false, otherwise insert a fresh row with count 1 and return
true. -/
def createActivity (db : List ActivityEvent) (accountID : Nat) (eventType : EventType)
    (eventDate : UTCTime) (repo tag : String) : List ActivityEvent × Bool :=
  let evDay := normalizeToMidnightUTC eventDate
  match db.find? (keyMatch accountID evDay repo tag) with
  | some _ => (incrementFirst (keyMatch accountID evDay repo tag) db, false)
  | none => (db ++ [⟨accountID, eventType, evDay, repo, tag, 1⟩], true)

/-- calculateLevel (docker_service.go:239-254, heatmap.go:1040-1058): 0 when
count or maxCount is 0, otherwise bucket the exact ratio count/maxCount with
strict thresholds 0.75, 0.5, 0.25, 0. -/
def calculateLevel (count maxCount : Nat) : Nat :=
  if count = 0 ∨ maxCount = 0 then 0
  else
    let ratio : ℚ := (count : ℚ) / (maxCount : ℚ)
    if ratio > 3/4 then 4
    else if ratio > 1/2 then 3
    else if ratio > 1/4 then 2
    else if ratio > 0 then 1
    else 0

/-- Spec-side restatement of the five-bucket table of spec section 4.4 as a
function of the ratio alone, used to state that calculateLevel is a pure
function of count/maxCount. -/
def levelOfRatio (q : ℚ) : Nat :=
  if q > 3/4 then 4
  else if q > 1/2 then 3
  else if q > 1/4 then 2
  else if q > 0 then 1
  else 0

/-- Integer characterisation of calculateLevel used to evaluate it inside the
kernel: for positive maxCount, count/maxCount > 3/4 iff 4*count > 3*maxCount,
and so on for the other thresholds. -/
def calculateLevelNat (count maxCount : Nat) : Nat :=
  if count = 0 ∨ maxCount = 0 then 0
  else if 3 * maxCount < 4 * count then 4
  else if maxCount < 2 * count then 3
  else if maxCount < 4 * count then 2
  else if 0 < count then 1
  else 0

/-- The events query of GetActivitySummary (heatmap.go:977-982):
docker_account_id = ? AND event_date >= startDate AND event_date <= endDate.
Event dates are midnights, so the bound against the endDate instant is a
bound against the current calendar day.  (The docker_service.go variant at
line 209 omits the upper bound; stored events never postdate the sync that
created them, so the two queries retrieve the same rows.) -/
def eventsInWindow (evs : List ActivityEvent) (accountID startDay today : Nat) :
    List ActivityEvent :=
  evs.filter (fun e =>
    e.dockerAccountID == accountID && startDay ≤ e.eventDate && e.eventDate ≤ today)

/-- Sum of counts of the events falling on day d (the TotalCount field of
dateMap[d] after the aggregation loop of GetActivitySummary). -/
def totalOn (evs : List ActivityEvent) (d : Nat) : Nat :=
  ((evs.filter (fun e => e.eventDate == d)).map (fun e => e.count)).sum

/-- Sum of counts of push events on day d (the Pushes field of dateMap[d]). -/
def pushesOn (evs : List ActivityEvent) (d : Nat) : Nat :=
  ((evs.filter (fun e => e.eventDate == d && e.eventType == EventType.push)).map
    (fun e => e.count)).sum

/-- Sum of counts of pull events on day d (the Pulls field of dateMap[d]). -/
def pullsOn (evs : List ActivityEvent) (d : Nat) : Nat :=
  ((evs.filter (fun e => e.eventDate == d && e.eventType == EventType.pull)).map
    (fun e => e.count)).sum

/-- Sum of counts of build events on day d (the Builds field of dateMap[d]). -/
def buildsOn (evs : List ActivityEvent) (d : Nat) : Nat :=
  ((evs.filter (fun e => e.eventDate == d && e.eventType == EventType.build)).map
    (fun e => e.count)).sum

/-- Whether dateMap has an entry for day d, i.e. some retrieved event row
falls on d. -/
def hasEventOn (evs : List ActivityEvent) (d : Nat) : Bool :=
  evs.any (fun e => e.eventDate == d)

/-- maxCount of GetActivitySummary: the maximum per-day total over the days
that have at least one event row (0 when there are none).  Folding over the
possibly-repeated event dates yields the same maximum as folding over the
distinct dateMap keys. -/
def windowMax (evs : List ActivityEvent) : Nat :=
  (evs.map (fun e => totalOn evs e.eventDate)).foldl max 0

/-- One iteration of the fill loop of GetActivitySummary (heatmap.go:
1023-1034): a day present in dateMap gets its aggregated counts and
calculateLevel; an absent day gets the zero summary with level 0. -/
def summaryFor (evs : List ActivityEvent) (maxCount d : Nat) : ActivitySummary :=
  if hasEventOn evs d then
    { date := d, totalCount := totalOn evs d, pushes := pushesOn evs d,
      pulls := pullsOn evs d, builds := buildsOn evs d,
      level := calculateLevel (totalOn evs d) maxCount }
  else
    { date := d, totalCount := 0, pushes := 0, pulls := 0, builds := 0, level := 0 }

/-- GetActivitySummary (heatmap.go:966-1037; docker_service.go:199-237 is the
same computation without the per-kind breakdown): startDate is today minus
the requested number of days truncated to midnight, the window query and
per-day aggregation run as above, and the fill loop walks one calendar day
at a time from startDate up to and including today. -/
def GetActivitySummary (evs : List ActivityEvent) (accountID today days : Nat) :
    List ActivitySummary :=
  let startDay := today - days
  let win := eventsInWindow evs accountID startDay today
  let maxCount := windowMax win
  (List.range (today - startDay + 1)).map (fun i => summaryFor win maxCount (startDay + i))

/-- Totals loop of GetActivityJSON (heatmap.go:206-212): totalActivities is
the sum of TotalCount over the returned series. -/
def totalsActivities (s : List ActivitySummary) : Nat :=
  (s.map (fun a => a.totalCount)).sum

/-- Totals loop of GetActivityJSON: sum of the Pushes fields. -/
def totalsPushes (s : List ActivitySummary) : Nat :=
  (s.map (fun a => a.pushes)).sum

/-- Totals loop of GetActivityJSON: sum of the Pulls fields. -/
def totalsPulls (s : List ActivitySummary) : Nat :=
  (s.map (fun a => a.pulls)).sum

/-- Totals loop of GetActivityJSON: sum of the Builds fields. -/
def totalsBuilds (s : List ActivitySummary) : Nat :=
  (s.map (fun a => a.builds)).sum

/-- A tag as the sync loop sees it: its name and its tag_last_pushed
timestamp, already run through parseDockerHubTime (none models an empty or
unparseable timestamp string, which the loop skips). -/
structure TagData where
  name : String
  tagLastPushed : Option UTCTime

/-- A repository as the sync loop sees it: its name, its last_updated
timestamp after parsing (none = absent or unparseable, skipped), and the
outcome of FetchTags for it (an error makes both variants process no tags:
docker_service.go:159 discards the error, heatmap.go:899-903 continues). -/
structure RepoData where
  name : String
  lastUpdated : Option UTCTime
  tags : Except String (List TagData)

/-- Tag half of the per-repository sync loop: one push-kind upsert per tag
that has a tag_last_pushed timestamp. -/
def processTags (accountID : Nat) (repoName : String) (tags : List TagData)
    (db : List ActivityEvent) : List ActivityEvent :=
  tags.foldl (fun db tag =>
    match tag.tagLastPushed with
    | some t => (createActivity db accountID EventType.push t repoName tag.name).1
    | none => db) db

/-- One iteration of the repository loop of SyncActivity (docker_service.go:
150-169, heatmap.go:885-916): a push-kind upsert for the repository's
last_updated timestamp when present, then one per tag. -/
def processRepo (accountID : Nat) (repo : RepoData) (db : List ActivityEvent) :
    List ActivityEvent :=
  let db1 :=
    match repo.lastUpdated with
    | some t => (createActivity db accountID EventType.push t repo.name "").1
    | none => db
  match repo.tags with
  | Except.error _ => db1
  | Except.ok tags => processTags accountID repo.name tags db1

/-- The whole repository loop of SyncActivity. -/
def processRepos (accountID : Nat) (repos : List RepoData) (db : List ActivityEvent) :
    List ActivityEvent :=
  repos.foldl (fun db r => processRepo accountID r db) db

/-- GORM First(&account, accountID): the row of the accounts table with the
given primary key. -/
def findAccountById (st : ServerState) (accountID : Nat) : Option DockerAccount :=
  st.accounts.find? (fun a => a.id == accountID)

/-- Where(user_id = ?).First: the account row belonging to a user. -/
def findAccountByUser (st : ServerState) (userId : Nat) : Option DockerAccount :=
  st.accounts.find? (fun a => a.userId == userId)

/-- database.DB.Save(&account): every row with the saved row's primary key is
replaced by it. -/
def saveAccount (st : ServerState) (acc : DockerAccount) : ServerState :=
  { st with accounts := st.accounts.map (fun a => if a.id == acc.id then acc else a) }

/-- Step 1 of the orchestrator: set SyncInProgress = true and persist
immediately. -/
def markRunning (st : ServerState) (acc : DockerAccount) : ServerState × DockerAccount :=
  let acc1 := { acc with syncInProgress := true }
  (saveAccount st acc1, acc1)

/-- The deferred exit step of both SyncActivity variants: on the local
account value as mutated so far, clear SyncInProgress, stamp LastSyncAt with
the completion time, and persist. -/
def finishSync (now : Nat) (st : ServerState) (acc : DockerAccount) : ServerState :=
  saveAccount st { acc with syncInProgress := false, lastSyncAt := some now }

/-- Environment of one run of the docker_service.go SyncActivity variant:
the outcome of utils.Decrypt on the stored credential, of login for a given
decrypted PAT, of FetchRepositories for a given session token, and the clock
value the deferred step reads. -/
structure SyncEnvA where
  decryptResult : Option String
  loginResult : String → Option String
  reposResult : String → Except String (List RepoData)
  now : Nat

/-- SyncActivity of docker_service.go:116-173: load the account, mark it
running, decrypt the credential (an error aborts the run), login (an error
records "Authentication failed" and aborts), fetch repositories (an error
records "Failed to fetch repositories" and aborts), process them, clear the
error field; the deferred finishSync applies to every exit after the account
was loaded. -/
def syncActivityDockerService (env : SyncEnvA) (accountID : Nat) (st : ServerState) :
    ServerState × Except String Unit :=
  match findAccountById st accountID with
  | none => (st, Except.error "record not found")
  | some acc0 =>
    let p := markRunning st acc0
    let st1 := p.1
    let acc1 := p.2
    match env.decryptResult with
    | none => (finishSync env.now st1 acc1, Except.error "cipher: decrypt failed")
    | some pat =>
      match env.loginResult pat with
      | none =>
        (finishSync env.now st1 { acc1 with lastSyncError := "Authentication failed" },
         Except.error "login failed")
      | some token =>
        match env.reposResult token with
        | Except.error e =>
          (finishSync env.now st1
            { acc1 with lastSyncError := "Failed to fetch repositories" },
           Except.error e)
        | Except.ok repos =>
          let st2 := { st1 with events := processRepos acc0.id repos st1.events }
          (finishSync env.now st2 { acc1 with lastSyncError := "" }, Except.ok ())

/-- Environment of one run of the heatmap.go SyncActivity variant: it has no
separate login step; FetchRepositories takes the decrypted token directly. -/
structure SyncEnvB where
  decryptResult : Option String
  reposResult : String → Except String (List RepoData)
  now : Nat

/-- Token actually used by the heatmap.go variant (lines 859-864): the
decrypted credential, or the empty string when decryption failed. -/
def decryptedToken (r : Option String) : String :=
  match r with
  | some t => t
  | none => ""

/-- Body of the heatmap.go SyncActivity after the account is loaded and
marked running (heatmap.go:858-920): a decryption failure falls back to the
empty token and the run continues; a FetchRepositories error records its
message and aborts; an empty repository list clears the error and exits;
otherwise the repositories are processed and the error cleared.  The
deferred finishSync applies to every exit. -/
def syncBodyHeatmap (env : SyncEnvB) (accountID : Nat) (st1 : ServerState)
    (acc1 : DockerAccount) : ServerState × Except String Unit :=
  let token := decryptedToken env.decryptResult
  match env.reposResult token with
  | Except.error e =>
    (finishSync env.now st1 { acc1 with lastSyncError := e }, Except.error e)
  | Except.ok repos =>
    if repos.isEmpty then
      (finishSync env.now st1 { acc1 with lastSyncError := "" }, Except.ok ())
    else
      let st2 := { st1 with events := processRepos accountID repos st1.events }
      (finishSync env.now st2 { acc1 with lastSyncError := "" }, Except.ok ())

/-- SyncActivity of heatmap.go:838-921: load the account, mark it running,
then run the body above. -/
def syncActivityHeatmap (env : SyncEnvB) (accountID : Nat) (st : ServerState) :
    ServerState × Except String Unit :=
  match findAccountById st accountID with
  | none => (st, Except.error "record not found")
  | some acc0 =>
    let p := markRunning st acc0
    syncBodyHeatmap env acc0.id p.1 p.2

/-- Outcome of the SyncDockerActivity handler as seen by the HTTP caller. -/
inductive SyncRequestResult where
  | notFound
  | conflict
  | started
deriving DecidableEq, Repr

/-- SyncDockerActivity (docker.go:127-154), with the spawned sync run
sequenced inline: look up the caller's account; reject with 404 when absent;
reject with 409 Conflict when SyncInProgress is already set, touching no
state; otherwise run the sync. -/
def SyncDockerActivity (env : SyncEnvB) (userId : Nat) (st : ServerState) :
    SyncRequestResult × ServerState :=
  match findAccountByUser st userId with
  | none => (SyncRequestResult.notFound, st)
  | some acc =>
    if acc.syncInProgress then (SyncRequestResult.conflict, st)
    else (SyncRequestResult.started, (syncActivityHeatmap env acc.id st).1)

/-- Number of event rows matching a key predicate (spec-side measure). -/
def matchCount (p : ActivityEvent → Bool) (db : List ActivityEvent) : Nat :=
  (db.filter p).length

/-- Total stored count over the event rows matching a key predicate
(spec-side measure). -/
def matchSum (p : ActivityEvent → Bool) (db : List ActivityEvent) : Nat :=
  ((db.filter p).map (fun e => e.count)).sum

/-- Spec-side relation: the second table extends the first by push-kind rows
only (every row is an original row, an original row with a larger count, or
a new push row appended at the end). -/
def pushExtends (db1 db2 : List ActivityEvent) : Prop :=
  ∃ k, db2.map (fun e => e.eventType) =
    db1.map (fun e => e.eventType) ++ List.replicate k EventType.push

/-- The C3 scenario event set: 5 push observations on 2024-01-01 (day index
19723 counted from 1970-01-01) and 10 on 2024-01-03, belonging to account 1;
2024-01-02 has no events. -/
def evsC3 : List ActivityEvent :=
  [⟨1, EventType.push, 19723, "repo", "", 5⟩,
   ⟨1, EventType.push, 19725, "repo", "", 10⟩]

/-- A one-row event table for the C4 witness: account 1 already holds a push
row on day 5 for repository r, tag t, with count 3. -/
def dbW4 : List ActivityEvent := [⟨1, EventType.push, 5, "r", "t", 3⟩]

/-- A one-row event table holding a pull-kind row, used to exhibit that the
duplicate lookup ignores the event kind. -/
def dbPull : List ActivityEvent := [⟨1, EventType.pull, 5, "r", "t", 1⟩]

/-- An account that is currently mid-sync, for the single-flight witness. -/
def accRunning : DockerAccount := ⟨1, 7, "u", true, none, ""⟩

/-- Server state whose only account is mid-sync. -/
def stRunning : ServerState := ⟨[accRunning], []⟩

/-- An idle healthy account (no recorded error, never synced). -/
def accIdle : DockerAccount := ⟨1, 7, "u", false, none, ""⟩

/-- Server state whose only account is idle and healthy, with no events. -/
def stIdle : ServerState := ⟨[accIdle], []⟩

/-- A trivial sync environment for the heatmap.go variant: decryption works,
the registry returns no repositories. -/
def envNoRepos : SyncEnvB := ⟨some "pat", fun _ => Except.ok [], 3⟩

/-- Environment for the docker_service.go variant in which decryption fails
while the registry would happily answer an unauthenticated repository
listing. -/
def envDecryptFail : SyncEnvA :=
  ⟨none, fun _ => some "tok",
   fun _ => Except.ok [⟨"r", some ⟨19723, 3600⟩, Except.ok []⟩], 77⟩

/-- Environment for the heatmap.go variant in which decryption fails and the
unauthenticated repository listing succeeds (empty). -/
def envDecryptFailB : SyncEnvB := ⟨none, fun _ => Except.ok [], 3⟩

/-- A repository with one tag, both carrying timestamps, for the C10
witness. -/
def repoW : RepoData := ⟨"r", some ⟨19723, 0⟩, Except.ok [⟨"latest", some ⟨19723, 5⟩⟩]⟩

end DockerHeatmap

namespace DockerHeatmap

theorem calculateLevel_eq_nat (count maxCount : Nat) :
    calculateLevel count maxCount = calculateLevelNat count maxCount := by
  by_cases h0 : count = 0 ∨ maxCount = 0
  · simp [calculateLevel, calculateLevelNat, h0]
  · push_neg at h0
    obtain ⟨hc, hm⟩ := h0
    have hcpos : 0 < count := Nat.pos_of_ne_zero hc
    have hmpos : 0 < maxCount := Nat.pos_of_ne_zero hm
    have hmq : (0 : ℚ) < (maxCount : ℚ) := by exact_mod_cast hmpos
    have h34 : ((count : ℚ) / (maxCount : ℚ) > 3/4) ↔ 3 * maxCount < 4 * count := by
      rw [gt_iff_lt, div_lt_div_iff₀ (by norm_num) hmq]
      constructor
      · intro h
        have h2 : 3 * maxCount < count * 4 := by exact_mod_cast h
        omega
      · intro h
        have h2 : 3 * maxCount < count * 4 := by omega
        exact_mod_cast h2
    have h12 : ((count : ℚ) / (maxCount : ℚ) > 1/2) ↔ maxCount < 2 * count := by
      rw [gt_iff_lt, div_lt_div_iff₀ (by norm_num) hmq]
      constructor
      · intro h
        have h2 : 1 * maxCount < count * 2 := by exact_mod_cast h
        omega
      · intro h
        have h2 : 1 * maxCount < count * 2 := by omega
        exact_mod_cast h2
    have h14 : ((count : ℚ) / (maxCount : ℚ) > 1/4) ↔ maxCount < 4 * count := by
      rw [gt_iff_lt, div_lt_div_iff₀ (by norm_num) hmq]
      constructor
      · intro h
        have h2 : 1 * maxCount < count * 4 := by exact_mod_cast h
        omega
      · intro h
        have h2 : 1 * maxCount < count * 4 := by omega
        exact_mod_cast h2
    have h00 : ((count : ℚ) / (maxCount : ℚ) > 0) ↔ 0 < count := by
      constructor
      · intro _; exact hcpos
      · intro _
        apply div_pos _ hmq
        exact_mod_cast hcpos
    have h12i : ((count : ℚ) / (maxCount : ℚ) > (2 : ℚ)⁻¹) ↔ maxCount < 2 * count := by
      rw [← one_div]; exact h12
    have h14i : ((count : ℚ) / (maxCount : ℚ) > (4 : ℚ)⁻¹) ↔ maxCount < 4 * count := by
      rw [← one_div]; exact h14
    simp [calculateLevel, calculateLevelNat, hc, hm, h34, h12i, h14i, h00]

theorem levelOfRatio_monotone : Monotone levelOfRatio := by
  intro a b hab
  unfold levelOfRatio
  split_ifs <;> first | omega | (exfalso; linarith)

/-- C1: calculateLevel returns 0 when the count or the window maximum is 0,
and otherwise is the pure five-bucket function of the exact ratio
count/maxCount with strict thresholds 3/4, 1/2, 1/4, 0; that bucket function
is monotonically non-decreasing, and each boundary ratio maps to the lower
bucket. -/
theorem C1_level_mapping :
    (∀ c : Nat, calculateLevel c 0 = 0) ∧
    (∀ m : Nat, calculateLevel 0 m = 0) ∧
    (∀ c m : Nat, 0 < m → calculateLevel c m = levelOfRatio ((c : ℚ) / (m : ℚ))) ∧
    Monotone levelOfRatio ∧
    (∀ q : ℚ, 3/4 < q → levelOfRatio q = 4) ∧
    (∀ q : ℚ, 1/2 < q → q ≤ 3/4 → levelOfRatio q = 3) ∧
    (∀ q : ℚ, 1/4 < q → q ≤ 1/2 → levelOfRatio q = 2) ∧
    (∀ q : ℚ, 0 < q → q ≤ 1/4 → levelOfRatio q = 1) ∧
    levelOfRatio (3/4) = 3 ∧ levelOfRatio (1/2) = 2 ∧ levelOfRatio (1/4) = 1 := by
  refine ⟨?_, ?_, ?_, levelOfRatio_monotone, ?_, ?_, ?_, ?_, ?_, ?_, ?_⟩
  · intro c; simp [calculateLevel]
  · intro m; simp [calculateLevel]
  · intro c m hm
    by_cases hc : c = 0
    · subst hc
      norm_num [calculateLevel, levelOfRatio]
    · have hm0 : m ≠ 0 := by omega
      simp only [calculateLevel, levelOfRatio, hc, hm0, or_self, if_false]
  · intro q h; simp only [levelOfRatio, gt_iff_lt, if_pos h]
  · intro q h1 h2
    have hn : ¬ (3/4 : ℚ) < q := not_lt.mpr h2
    simp only [levelOfRatio, gt_iff_lt, if_neg hn, if_pos h1]
  · intro q h1 h2
    have hn1 : ¬ (3/4 : ℚ) < q := by linarith
    have hn2 : ¬ (1/2 : ℚ) < q := not_lt.mpr h2
    simp only [levelOfRatio, gt_iff_lt, if_neg hn1, if_neg hn2, if_pos h1]
  · intro q h1 h2
    have hn1 : ¬ (3/4 : ℚ) < q := by linarith
    have hn2 : ¬ (1/2 : ℚ) < q := by linarith
    have hn3 : ¬ (1/4 : ℚ) < q := not_lt.mpr h2
    simp only [levelOfRatio, gt_iff_lt, if_neg hn1, if_neg hn2, if_neg hn3, if_pos h1]
  · norm_num [levelOfRatio]
  · norm_num [levelOfRatio]
  · norm_num [levelOfRatio]

/-- Witness for C1 at count 3, maxCount 4: the ratio is exactly 0.75 and the
level is the lower bucket 3. -/
theorem C1_level_mapping_witness :
    calculateLevel 3 4 = levelOfRatio ((3 : ℚ) / 4) ∧ levelOfRatio ((3 : ℚ) / 4) = 3 :=
  ⟨C1_level_mapping.2.2.1 3 4 (by norm_num),
   by norm_num [levelOfRatio]⟩

theorem summaryFor_date (evs : List ActivityEvent) (maxCount d : Nat) :
    (summaryFor evs maxCount d).date = d := by
  unfold summaryFor
  split <;> rfl

/-- C2: for a window of the requested length (today minus days .. today),
the series has exactly days + 1 entries, and the dates of the entries are
precisely the consecutive calendar days of the window in ascending order. -/
theorem C2_series_shape (evs : List ActivityEvent) (accountID today days : Nat)
    (h : days ≤ today) :
    (GetActivitySummary evs accountID today days).length = days + 1 ∧
    (GetActivitySummary evs accountID today days).map (fun s => s.date) =
      (List.range (days + 1)).map (fun i => (today - days) + i) := by
  have hsub : today - (today - days) = days := by omega
  constructor
  · simp only [GetActivitySummary, List.length_map, List.length_range]
    omega
  · simp only [GetActivitySummary, List.map_map]
    rw [hsub]
    apply List.map_congr_left
    intro i _
    simp [summaryFor_date]

/-- Witness for C2 on the three-day scenario window. -/
theorem C2_series_shape_witness :
    (GetActivitySummary evsC3 1 19725 2).length = 2 + 1 :=
  (C2_series_shape evsC3 1 19725 2 (by norm_num)).1

/-- C3 as written is false: in the scenario with 5 activities on 2024-01-01,
none on 2024-01-02 and 10 on 2024-01-03 over exactly those three days, the
first day's ratio is exactly 0.5, which the strict threshold sends to level
2, not 3 as the claim states. -/
theorem C3_counterexample :
    (GetActivitySummary evsC3 1 19725 2).map (fun s => s.level) = [2, 0, 4] ∧
    ¬ (GetActivitySummary evsC3 1 19725 2).map (fun s => s.level) = [3, 0, 4] := by
  simp only [GetActivitySummary, eventsInWindow, windowMax, summaryFor, totalOn,
    pushesOn, pullsOn, buildsOn, hasEventOn, evsC3, calculateLevel_eq_nat]
  decide

/-- C3 amended: in that scenario the window maximum is 10, the series is day
1 (ratio 0.5) level 2, day 2 level 0, day 3 (ratio 1.0) level 4, and
totals.activities is 15. -/
theorem C3_amended_scenario :
    windowMax (eventsInWindow evsC3 1 (19725 - 2) 19725) = 10 ∧
    GetActivitySummary evsC3 1 19725 2 =
      [⟨19723, 5, 5, 0, 0, 2⟩, ⟨19724, 0, 0, 0, 0, 0⟩, ⟨19725, 10, 10, 0, 0, 4⟩] ∧
    totalsActivities (GetActivitySummary evsC3 1 19725 2) = 15 := by
  refine ⟨by decide, ?_, ?_⟩ <;>
    simp only [GetActivitySummary, totalsActivities, eventsInWindow, windowMax,
      summaryFor, totalOn, pushesOn, pullsOn, buildsOn, hasEventOn, evsC3,
      calculateLevel_eq_nat] <;>
    decide

/-- C9: a window day on which the account has no recorded events is still
emitted, at its position in the series, as the zero summary with total count
0 and level 0. -/
theorem C9_zero_fill (evs : List ActivityEvent) (accountID today days d : Nat)
    (h : days ≤ today) (hd1 : today - days ≤ d) (hd2 : d ≤ today)
    (hno : ∀ e ∈ evs, e.dockerAccountID = accountID → e.eventDate ≠ d) :
    (GetActivitySummary evs accountID today days)[d - (today - days)]? =
      some ⟨d, 0, 0, 0, 0, 0⟩ := by
  have hwin : hasEventOn (eventsInWindow evs accountID (today - days) today) d = false := by
    rw [hasEventOn, List.any_eq_false]
    intro e he
    rw [eventsInWindow, List.mem_filter] at he
    obtain ⟨hmem, hcond⟩ := he
    simp only [Bool.and_eq_true, beq_iff_eq, decide_eq_true_eq] at hcond
    simp only [beq_iff_eq]
    exact hno e hmem hcond.1.1
  have hidx : d - (today - days) < today - (today - days) + 1 := by omega
  unfold GetActivitySummary
  rw [List.getElem?_map, List.getElem?_range hidx]
  have harg : (today - days) + (d - (today - days)) = d := by omega
  simp [harg, summaryFor, hwin]

/-- Witness for C9: day 2024-01-02 of the scenario window has no events and
is emitted as the zero entry. -/
theorem C9_zero_fill_witness :
    (GetActivitySummary evsC3 1 19725 2)[19724 - (19725 - 2)]? =
      some ⟨19724, 0, 0, 0, 0, 0⟩ :=
  C9_zero_fill evsC3 1 19725 2 19724 (by norm_num) (by norm_num) (by norm_num)
    (by decide)

theorem keyMatch_count_irrel (a dday : Nat) (r tg : String) (e : ActivityEvent) (c : Nat) :
    keyMatch a dday r tg { e with count := c } = keyMatch a dday r tg e := rfl

theorem keyMatch_self (a dday : Nat) (r tg : String) (k : EventType) (c : Nat) :
    keyMatch a dday r tg ⟨a, k, dday, r, tg, c⟩ = true := by
  simp [keyMatch]

theorem incrementFirst_length (p : ActivityEvent → Bool) (db : List ActivityEvent) :
    (incrementFirst p db).length = db.length := by
  induction db with
  | nil => rfl
  | cons e es ih =>
    unfold incrementFirst
    split <;> simp [ih]

theorem incrementFirst_map_eventType (p : ActivityEvent → Bool) (db : List ActivityEvent) :
    (incrementFirst p db).map (fun e => e.eventType) = db.map (fun e => e.eventType) := by
  induction db with
  | nil => rfl
  | cons e es ih =>
    unfold incrementFirst
    split <;> simp [ih]

theorem incrementFirst_matchCount (p : ActivityEvent → Bool)
    (hp : ∀ e c, p { e with count := c } = p e) (db : List ActivityEvent) :
    matchCount p (incrementFirst p db) = matchCount p db := by
  induction db with
  | nil => rfl
  | cons e es ih =>
    unfold incrementFirst
    by_cases hpe : p e = true
    · rw [if_pos hpe]
      unfold matchCount
      rw [List.filter_cons, List.filter_cons, hp e (e.count + 1), hpe]
      simp
    · rw [if_neg hpe]
      unfold matchCount at ih ⊢
      rw [List.filter_cons, List.filter_cons]
      rw [Bool.not_eq_true] at hpe
      rw [hpe]
      simpa using ih

theorem incrementFirst_matchSum (p : ActivityEvent → Bool)
    (hp : ∀ e c, p { e with count := c } = p e) (db : List ActivityEvent)
    (h : db.any p = true) :
    matchSum p (incrementFirst p db) = matchSum p db + 1 := by
  induction db with
  | nil => simp at h
  | cons e es ih =>
    unfold incrementFirst
    by_cases hpe : p e = true
    · rw [if_pos hpe]
      unfold matchSum
      rw [List.filter_cons, List.filter_cons, hp e (e.count + 1), hpe]
      simp only [if_true, List.map_cons, List.sum_cons]
      omega
    · rw [if_neg hpe]
      have hes : es.any p = true := by
        rw [List.any_cons] at h
        rcases Bool.or_eq_true_iff.mp h with h1 | h2
        · exact absurd h1 hpe
        · exact h2
      unfold matchSum at ih ⊢
      rw [List.filter_cons, List.filter_cons]
      rw [Bool.not_eq_true] at hpe
      rw [hpe]
      simpa using ih hes

theorem matchCount_append (p : ActivityEvent → Bool) (db l : List ActivityEvent) :
    matchCount p (db ++ l) = matchCount p db + matchCount p l := by
  unfold matchCount
  rw [List.filter_append]
  simp

theorem matchSum_append (p : ActivityEvent → Bool) (db l : List ActivityEvent) :
    matchSum p (db ++ l) = matchSum p db + matchSum p l := by
  unfold matchSum
  rw [List.filter_append]
  simp

theorem createActivity_of_found (db : List ActivityEvent) (a : Nat) (k : EventType)
    (t : UTCTime) (r tg : String)
    (h : (db.find? (keyMatch a t.day r tg)).isSome = true) :
    createActivity db a k t r tg = (incrementFirst (keyMatch a t.day r tg) db, false) := by
  obtain ⟨e, he⟩ := Option.isSome_iff_exists.mp h
  simp [createActivity, normalizeToMidnightUTC, he]

theorem createActivity_of_not_found (db : List ActivityEvent) (a : Nat) (k : EventType)
    (t : UTCTime) (r tg : String)
    (h : db.find? (keyMatch a t.day r tg) = none) :
    createActivity db a k t r tg = (db ++ [⟨a, k, t.day, r, tg, 1⟩], true) := by
  simp [createActivity, normalizeToMidnightUTC, h]

theorem any_of_exists_match (db : List ActivityEvent) (p : ActivityEvent → Bool)
    (h : ∃ e ∈ db, p e = true) : db.any p = true := by
  rcases h with ⟨e, hmem, hpe⟩
  exact List.any_eq_true.mpr ⟨e, hmem, hpe⟩

theorem find_isSome_of_any (db : List ActivityEvent) (p : ActivityEvent → Bool)
    (h : db.any p = true) : (db.find? p).isSome = true := by
  rcases List.any_eq_true.mp h with ⟨e, hmem, hpe⟩
  exact List.find?_isSome.mpr ⟨e, hmem, hpe⟩

/-- C4 as written is false: the duplicate lookup of createActivity does not
include the event kind, so an upsert whose full five-part key (with kind
push) matches no existing row is nevertheless merged into a pull-kind row
agreeing on the other four components, returning false and inserting
nothing, where the claim requires a fresh row and true. -/
theorem C4_counterexample :
    (∀ e ∈ dbPull,
        ¬ (e.dockerAccountID = 1 ∧ e.eventType = EventType.push ∧ e.eventDate = 5 ∧
           e.repository = "r" ∧ e.tag = "t")) ∧
    (createActivity dbPull 1 EventType.push ⟨5, 0⟩ "r" "t").2 = false ∧
    (createActivity dbPull 1 EventType.push ⟨5, 0⟩ "r" "t").1.length = 1 := by
  refine ⟨by decide, by decide, by decide⟩

/-- C4 amended: the store's uniqueness key is (account, day, resource,
sub-resource) without the kind.  An upsert against a state holding a row
with that key increments (the first) matching row's total count and returns
false; against a state with no matching row it appends a count-1 row and
returns true; and when the state holds at most one matching row, two
successive identical upserts leave exactly one matching row whose count has
grown by 2 and at most one new row overall, never two matching rows. -/
theorem C4_upsert_amended (db : List ActivityEvent) (a : Nat) (k : EventType)
    (t : UTCTime) (r tg : String) :
    ((∃ e ∈ db, keyMatch a t.day r tg e = true) →
        (createActivity db a k t r tg).2 = false ∧
        (createActivity db a k t r tg).1.length = db.length ∧
        matchCount (keyMatch a t.day r tg) (createActivity db a k t r tg).1 =
          matchCount (keyMatch a t.day r tg) db ∧
        matchSum (keyMatch a t.day r tg) (createActivity db a k t r tg).1 =
          matchSum (keyMatch a t.day r tg) db + 1) ∧
    ((∀ e ∈ db, keyMatch a t.day r tg e = false) →
        (createActivity db a k t r tg).2 = true ∧
        (createActivity db a k t r tg).1 = db ++ [⟨a, k, t.day, r, tg, 1⟩]) ∧
    (matchCount (keyMatch a t.day r tg) db ≤ 1 →
        matchCount (keyMatch a t.day r tg)
            (createActivity (createActivity db a k t r tg).1 a k t r tg).1 = 1 ∧
        matchSum (keyMatch a t.day r tg)
            (createActivity (createActivity db a k t r tg).1 a k t r tg).1 =
          matchSum (keyMatch a t.day r tg) db + 2 ∧
        (createActivity (createActivity db a k t r tg).1 a k t r tg).1.length ≤
          db.length + 1) := by
  have hp : ∀ e c, keyMatch a t.day r tg { e with count := c } = keyMatch a t.day r tg e :=
    fun e c => keyMatch_count_irrel a t.day r tg e c
  have hself : keyMatch a t.day r tg ⟨a, k, t.day, r, tg, 1⟩ = true :=
    keyMatch_self a t.day r tg k 1
  have upsert_found : ∀ db1 : List ActivityEvent,
      (db1.any (keyMatch a t.day r tg) = true) →
      (createActivity db1 a k t r tg).2 = false ∧
      (createActivity db1 a k t r tg).1.length = db1.length ∧
      matchCount (keyMatch a t.day r tg) (createActivity db1 a k t r tg).1 =
        matchCount (keyMatch a t.day r tg) db1 ∧
      matchSum (keyMatch a t.day r tg) (createActivity db1 a k t r tg).1 =
        matchSum (keyMatch a t.day r tg) db1 + 1 := by
    intro db1 hany
    have hfound := find_isSome_of_any db1 (keyMatch a t.day r tg) hany
    rw [createActivity_of_found db1 a k t r tg hfound]
    exact ⟨rfl, incrementFirst_length _ db1,
      incrementFirst_matchCount _ hp db1, incrementFirst_matchSum _ hp db1 hany⟩
  have upsert_fresh : ∀ db1 : List ActivityEvent,
      (∀ e ∈ db1, keyMatch a t.day r tg e = false) →
      (createActivity db1 a k t r tg).2 = true ∧
      (createActivity db1 a k t r tg).1 = db1 ++ [⟨a, k, t.day, r, tg, 1⟩] := by
    intro db1 hnone
    have hfind : db1.find? (keyMatch a t.day r tg) = none := by
      rw [List.find?_eq_none]
      intro e hmem
      rw [hnone e hmem]
      simp
    rw [createActivity_of_not_found db1 a k t r tg hfind]
    exact ⟨rfl, rfl⟩
  refine ⟨?_, ?_, ?_⟩
  · intro hex
    exact upsert_found db ((any_of_exists_match db _) hex)
  · intro hnone
    exact ⟨(upsert_fresh db hnone).1, (upsert_fresh db hnone).2⟩
  · intro hle
    have hiff : ∀ db1 : List ActivityEvent,
        db1.any (keyMatch a t.day r tg) = true ↔
          0 < matchCount (keyMatch a t.day r tg) db1 := by
      intro db1
      unfold matchCount
      constructor
      · intro hx
        rcases List.any_eq_true.mp hx with ⟨e, hm, hp1⟩
        have hmem : e ∈ db1.filter (keyMatch a t.day r tg) :=
          List.mem_filter.mpr ⟨hm, hp1⟩
        exact List.length_pos.mpr (List.ne_nil_of_mem hmem)
      · intro hx
        rcases List.exists_mem_of_length_pos hx with ⟨e, hmem⟩
        have hm2 := List.mem_filter.mp hmem
        exact List.any_eq_true.mpr ⟨e, hm2.1, hm2.2⟩
    by_cases hany : db.any (keyMatch a t.day r tg) = true
    · have h1 := upsert_found db hany
      have hc1 : 0 < matchCount (keyMatch a t.day r tg) (createActivity db a k t r tg).1 := by
        rw [h1.2.2.1]
        exact (hiff db).mp hany
      have hany1 := (hiff (createActivity db a k t r tg).1).mpr hc1
      have h2 := upsert_found (createActivity db a k t r tg).1 hany1
      have hcount : matchCount (keyMatch a t.day r tg) db = 1 := by
        have := (hiff db).mp hany
        omega
      refine ⟨?_, ?_, ?_⟩
      · rw [h2.2.2.1, h1.2.2.1, hcount]
      · rw [h2.2.2.2, h1.2.2.2]
      · rw [h2.2.1, h1.2.1]
        omega
    · have hnone : ∀ e ∈ db, keyMatch a t.day r tg e = false := by
        intro e hmem
        rw [Bool.not_eq_true] at hany
        rcases List.any_eq_false.mp hany e hmem |> fun hx => hx with hx
        exact Bool.not_eq_true _ |>.mp hx
      have h1 := upsert_fresh db hnone
      have hfilnil : db.filter (keyMatch a t.day r tg) = [] := by
        rw [List.filter_eq_nil_iff]
        intro e he
        rw [hnone e he]
        simp
      have hmc0 : matchCount (keyMatch a t.day r tg) db = 0 := by
        unfold matchCount
        rw [hfilnil]
        rfl
      have hms0 : matchSum (keyMatch a t.day r tg) db = 0 := by
        unfold matchSum
        rw [hfilnil]
        rfl
      have hmc1 : matchCount (keyMatch a t.day r tg) (createActivity db a k t r tg).1 = 1 := by
        rw [h1.2, matchCount_append, hmc0]
        unfold matchCount
        rw [List.filter_cons, hself]
        rfl
      have hms1 : matchSum (keyMatch a t.day r tg) (createActivity db a k t r tg).1 = 1 := by
        rw [h1.2, matchSum_append, hms0]
        unfold matchSum
        rw [List.filter_cons, hself]
        rfl
      have hany1 := (hiff (createActivity db a k t r tg).1).mpr (by omega)
      have h2 := upsert_found (createActivity db a k t r tg).1 hany1
      refine ⟨?_, ?_, ?_⟩
      · rw [h2.2.2.1, hmc1]
      · rw [h2.2.2.2, hms1, hms0]
      · rw [h2.2.1, h1.2]
        simp

/-- Witness for C4 at a state already holding the matching push row with
count 3: the upsert merges and reports false. -/
theorem C4_upsert_amended_witness :
    (createActivity dbW4 1 EventType.push ⟨5, 0⟩ "r" "t").2 = false ∧
    (createActivity dbW4 1 EventType.push ⟨5, 0⟩ "r" "t").1.length = dbW4.length ∧
    matchCount (keyMatch 1 (5 : Nat) "r" "t") (createActivity dbW4 1 EventType.push ⟨5, 0⟩ "r" "t").1 =
      matchCount (keyMatch 1 (5 : Nat) "r" "t") dbW4 ∧
    matchSum (keyMatch 1 (5 : Nat) "r" "t") (createActivity dbW4 1 EventType.push ⟨5, 0⟩ "r" "t").1 =
      matchSum (keyMatch 1 (5 : Nat) "r" "t") dbW4 + 1 :=
  (C4_upsert_amended dbW4 1 EventType.push ⟨5, 0⟩ "r" "t").1
    ⟨⟨1, EventType.push, 5, "r", "t", 3⟩, by decide⟩

/-- C5 as written is false: two upserts agreeing on account, day, resource
and sub-resource but differing in kind (push then pull) do not produce two
rows; the second is merged into the push row, which keeps its original kind
and ends with count 2. -/
theorem C5_counterexample :
    (createActivity
        (createActivity [] 1 EventType.push ⟨19723, 0⟩ "repo" "latest").1
        1 EventType.pull ⟨19723, 0⟩ "repo" "latest").1 =
      [⟨1, EventType.push, 19723, "repo", "latest", 2⟩] ∧
    ¬ (createActivity
        (createActivity [] 1 EventType.push ⟨19723, 0⟩ "repo" "latest").1
        1 EventType.pull ⟨19723, 0⟩ "repo" "latest").1.length = 2 := by
  refine ⟨by decide, by decide⟩

/-- C5 amended: the uniqueness key of an ActivityEvent is (account, calendar
day, resource, sub-resource); the event kind is not part of the key.  An
upsert agreeing with some stored row on those four components merges into it
regardless of kind — returning false, leaving the row count and every stored
kind unchanged — and only when no row agrees on the four components is a new
row (carrying the upsert's kind) appended. -/
theorem C5_key_amended (db : List ActivityEvent) (a : Nat) (k : EventType)
    (t : UTCTime) (r tg : String) :
    (db.any (keyMatch a t.day r tg) = true →
        (createActivity db a k t r tg).2 = false ∧
        (createActivity db a k t r tg).1.length = db.length ∧
        (createActivity db a k t r tg).1.map (fun e => e.eventType) =
          db.map (fun e => e.eventType)) ∧
    (db.any (keyMatch a t.day r tg) = false →
        (createActivity db a k t r tg).2 = true ∧
        (createActivity db a k t r tg).1 = db ++ [⟨a, k, t.day, r, tg, 1⟩]) := by
  constructor
  · intro hany
    have hfound := find_isSome_of_any db (keyMatch a t.day r tg) hany
    rw [createActivity_of_found db a k t r tg hfound]
    exact ⟨rfl, incrementFirst_length _ db, incrementFirst_map_eventType _ db⟩
  · intro hany
    have hfind : db.find? (keyMatch a t.day r tg) = none := by
      rw [List.find?_eq_none]
      intro e hmem
      exact List.any_eq_false.mp hany e hmem
    rw [createActivity_of_not_found db a k t r tg hfind]
    exact ⟨rfl, rfl⟩

/-- Witness for C5: a pull upsert over a table holding only the matching
push row merges instead of creating a second row. -/
theorem C5_key_amended_witness :
    (createActivity dbPull 1 EventType.build ⟨5, 0⟩ "r" "t").2 = false ∧
    (createActivity dbPull 1 EventType.build ⟨5, 0⟩ "r" "t").1.length = dbPull.length ∧
    (createActivity dbPull 1 EventType.build ⟨5, 0⟩ "r" "t").1.map (fun e => e.eventType) =
      dbPull.map (fun e => e.eventType) :=
  (C5_key_amended dbPull 1 EventType.build ⟨5, 0⟩ "r" "t").1 (by decide)

/-- C6: a manual sync request for an account whose SyncInProgress flag is
set is answered with 409 Conflict and leaves the entire state — accounts and
activity events — untouched; when the flag is clear, the guard is followed
directly by the transition to Running: the handler runs the sync, whose
first persisted write is SyncInProgress = true on the freshly loaded
account, with no other state change in between. -/
theorem C6_single_flight (env : SyncEnvB) (userId : Nat) (st : ServerState)
    (acc : DockerAccount) (hfind : findAccountByUser st userId = some acc) :
    (acc.syncInProgress = true →
        (SyncDockerActivity env userId st).1 = SyncRequestResult.conflict ∧
        (SyncDockerActivity env userId st).2 = st ∧
        (SyncDockerActivity env userId st).2.events = st.events) ∧
    (acc.syncInProgress = false →
        (SyncDockerActivity env userId st).1 = SyncRequestResult.started ∧
        (SyncDockerActivity env userId st).2 = (syncActivityHeatmap env acc.id st).1) ∧
    (∀ acc0, findAccountById st acc.id = some acc0 →
        syncActivityHeatmap env acc.id st =
          syncBodyHeatmap env acc0.id
            (saveAccount st { acc0 with syncInProgress := true })
            { acc0 with syncInProgress := true }) := by
  refine ⟨?_, ?_, ?_⟩
  · intro hrun
    unfold SyncDockerActivity
    rw [hfind]
    simp [hrun]
  · intro hidle
    unfold SyncDockerActivity
    rw [hfind]
    simp [hidle]
  · intro acc0 hfind0
    unfold syncActivityHeatmap
    rw [hfind0]
    rfl

/-- Witness for C6: the request against the mid-sync account is rejected as
a conflict without touching the state. -/
theorem C6_single_flight_witness :
    (SyncDockerActivity envNoRepos 7 stRunning).1 = SyncRequestResult.conflict ∧
    (SyncDockerActivity envNoRepos 7 stRunning).2 = stRunning ∧
    (SyncDockerActivity envNoRepos 7 stRunning).2.events = stRunning.events :=
  (C6_single_flight envNoRepos 7 stRunning accRunning rfl).1 rfl

theorem find_save_list (l : List DockerAccount) (acc : DockerAccount) (accountID : Nat)
    (hid : acc.id = accountID)
    (h : (l.find? (fun a => a.id == accountID)).isSome = true) :
    (l.map (fun a => if a.id == acc.id then acc else a)).find?
      (fun a => a.id == accountID) = some acc := by
  induction l with
  | nil => simp at h
  | cons x xs ih =>
    simp only [List.map_cons]
    by_cases hx : x.id = accountID
    · have hbeq : (x.id == acc.id) = true := by simp [hx, hid]
      rw [if_pos hbeq, List.find?_cons]
      have hpacc : (acc.id == accountID) = true := by simp [hid]
      simp [hpacc]
    · have hbeq : ¬ (x.id == acc.id) = true := by simp [hid, hx]
      have hpx : (x.id == accountID) = false := by simp [hx]
      rw [List.find?_cons] at h
      simp only [hpx] at h
      rw [if_neg hbeq, List.find?_cons]
      simp only [hpx]
      exact ih h

theorem findAccountById_save (st : ServerState) (acc : DockerAccount) (accountID : Nat)
    (hid : acc.id = accountID)
    (h : (findAccountById st accountID).isSome = true) :
    findAccountById (saveAccount st acc) accountID = some acc :=
  find_save_list st.accounts acc accountID hid h

theorem findAccountById_finishSync (st : ServerState) (accX : DockerAccount)
    (accountID now : Nat) (hid : accX.id = accountID)
    (h : (findAccountById st accountID).isSome = true) :
    findAccountById (finishSync now st accX) accountID =
      some { accX with syncInProgress := false, lastSyncAt := some now } :=
  findAccountById_save st _ accountID hid h

theorem findAccountById_id (st : ServerState) (accountID : Nat) (acc0 : DockerAccount)
    (hfind : findAccountById st accountID = some acc0) : acc0.id = accountID := by
  have hp := List.find?_some hfind
  simpa using hp

/-- C7 as written is false on the docker_service.go variant: when decryption
of the stored credential fails, the run exits with an error, the flag is
cleared and the timestamp stamped, but LastSyncError is left at its previous
value — here the empty string, the marker the claim reserves for success —
instead of holding the failure message. -/
theorem C7_counterexample :
    (syncActivityDockerService envDecryptFail 1 stIdle).2 =
      Except.error "cipher: decrypt failed" ∧
    (findAccountById (syncActivityDockerService envDecryptFail 1 stIdle).1 1).map
      (fun a => a.lastSyncError) = some "" ∧
    (findAccountById (syncActivityDockerService envDecryptFail 1 stIdle).1 1).map
      (fun a => a.syncInProgress) = some false ∧
    (findAccountById (syncActivityDockerService envDecryptFail 1 stIdle).1 1).map
      (fun a => a.lastSyncAt) = some (some 77) :=
  ⟨rfl, rfl, rfl, rfl⟩

/-- C7 amended: on every exit of a sync run (for a loaded account), in both
variants, the flag is cleared and the last-sync timestamp set to the
completion time, persisted; the last-sync-error field holds the empty string
on success, and on failure holds the corresponding message — except on the
docker_service.go variant's decryption-failure exit, where it keeps its
previous value. -/
theorem C7_amended (accountID : Nat) (st : ServerState) (acc0 : DockerAccount)
    (hfind : findAccountById st accountID = some acc0) :
    (∀ env : SyncEnvA,
        (findAccountById (syncActivityDockerService env accountID st).1 accountID).map
            (fun a => a.syncInProgress) = some false ∧
        (findAccountById (syncActivityDockerService env accountID st).1 accountID).map
            (fun a => a.lastSyncAt) = some (some env.now) ∧
        ((syncActivityDockerService env accountID st).2 = Except.ok () →
          (findAccountById (syncActivityDockerService env accountID st).1 accountID).map
            (fun a => a.lastSyncError) = some "") ∧
        (env.decryptResult = none →
          (findAccountById (syncActivityDockerService env accountID st).1 accountID).map
            (fun a => a.lastSyncError) = some acc0.lastSyncError) ∧
        (∀ pat, env.decryptResult = some pat → env.loginResult pat = none →
          (findAccountById (syncActivityDockerService env accountID st).1 accountID).map
            (fun a => a.lastSyncError) = some "Authentication failed") ∧
        (∀ pat token e, env.decryptResult = some pat →
          env.loginResult pat = some token → env.reposResult token = Except.error e →
          (findAccountById (syncActivityDockerService env accountID st).1 accountID).map
            (fun a => a.lastSyncError) = some "Failed to fetch repositories")) ∧
    (∀ env : SyncEnvB,
        (findAccountById (syncActivityHeatmap env accountID st).1 accountID).map
            (fun a => a.syncInProgress) = some false ∧
        (findAccountById (syncActivityHeatmap env accountID st).1 accountID).map
            (fun a => a.lastSyncAt) = some (some env.now) ∧
        ((syncActivityHeatmap env accountID st).2 = Except.ok () →
          (findAccountById (syncActivityHeatmap env accountID st).1 accountID).map
            (fun a => a.lastSyncError) = some "") ∧
        (∀ e, env.reposResult (decryptedToken env.decryptResult) = Except.error e →
          (findAccountById (syncActivityHeatmap env accountID st).1 accountID).map
            (fun a => a.lastSyncError) = some e)) := by
  have hid0 : acc0.id = accountID := findAccountById_id st accountID acc0 hfind
  have hsome0 : (findAccountById st accountID).isSome = true := by rw [hfind]; rfl
  have hfind1 : findAccountById (saveAccount st { acc0 with syncInProgress := true })
      accountID = some { acc0 with syncInProgress := true } :=
    findAccountById_save st _ accountID hid0 hsome0
  have hsome1 : (findAccountById (saveAccount st { acc0 with syncInProgress := true })
      accountID).isSome = true := by rw [hfind1]; rfl
  constructor
  · intro env
    rcases henv : env.decryptResult with _ | pat
    · have hrun : syncActivityDockerService env accountID st =
          (finishSync env.now (saveAccount st { acc0 with syncInProgress := true })
             { acc0 with syncInProgress := true },
           Except.error "cipher: decrypt failed") := by
        unfold syncActivityDockerService
        rw [hfind]
        simp only [markRunning, henv]
      have hfindF := findAccountById_finishSync
        (saveAccount st { acc0 with syncInProgress := true })
        { acc0 with syncInProgress := true } accountID env.now hid0 hsome1
      refine ⟨?_, ?_, ?_, ?_, ?_, ?_⟩
      · simp only [hrun]; rw [hfindF]; rfl
      · simp only [hrun]; rw [hfindF]; rfl
      · intro hok
        simp only [hrun] at hok
        exact Except.noConfusion hok
      · intro _
        simp only [hrun]; rw [hfindF]; rfl
      · intro pat hsome _
        exact Option.noConfusion hsome
      · intro pat tok e hsome _ _
        exact Option.noConfusion hsome
    · rcases hlog : env.loginResult pat with _ | token
      · have hrun : syncActivityDockerService env accountID st =
            (finishSync env.now (saveAccount st { acc0 with syncInProgress := true })
               { acc0 with syncInProgress := true, lastSyncError := "Authentication failed" },
             Except.error "login failed") := by
          unfold syncActivityDockerService
          rw [hfind]
          simp only [markRunning, henv, hlog]
        have hfindF := findAccountById_finishSync
          (saveAccount st { acc0 with syncInProgress := true })
          { acc0 with syncInProgress := true, lastSyncError := "Authentication failed" }
          accountID env.now hid0 hsome1
        refine ⟨?_, ?_, ?_, ?_, ?_, ?_⟩
        · simp only [hrun]; rw [hfindF]; rfl
        · simp only [hrun]; rw [hfindF]; rfl
        · intro hok
          simp only [hrun] at hok
          exact Except.noConfusion hok
        · intro hnone
          exact Option.noConfusion hnone
        · intro pat2 hsome2 _
          simp only [hrun]; rw [hfindF]; rfl
        · intro pat2 tok e hsome2 hlog2 _
          have hpp : pat = pat2 := Option.some.inj hsome2
          rw [← hpp, hlog] at hlog2
          exact Option.noConfusion hlog2
      · rcases hrep : env.reposResult token with e | repos
        · have hrun : syncActivityDockerService env accountID st =
              (finishSync env.now (saveAccount st { acc0 with syncInProgress := true })
                 { acc0 with syncInProgress := true, lastSyncError := "Failed to fetch repositories" },
               Except.error e) := by
            unfold syncActivityDockerService
            rw [hfind]
            simp only [markRunning, henv, hlog, hrep]
          have hfindF := findAccountById_finishSync
            (saveAccount st { acc0 with syncInProgress := true })
            { acc0 with syncInProgress := true, lastSyncError := "Failed to fetch repositories" }
            accountID env.now hid0 hsome1
          refine ⟨?_, ?_, ?_, ?_, ?_, ?_⟩
          · simp only [hrun]; rw [hfindF]; rfl
          · simp only [hrun]; rw [hfindF]; rfl
          · intro hok
            simp only [hrun] at hok
            exact Except.noConfusion hok
          · intro hnone
            exact Option.noConfusion hnone
          · intro pat2 hsome2 hlog2
            have hpp : pat = pat2 := Option.some.inj hsome2
            rw [← hpp, hlog] at hlog2
            exact Option.noConfusion hlog2
          · intro pat2 tok e2 hsome2 hlog2 _
            simp only [hrun]; rw [hfindF]; rfl
        · have hrun : syncActivityDockerService env accountID st =
              (finishSync env.now
                 (ServerState.mk
                   (saveAccount st { acc0 with syncInProgress := true }).accounts
                   (processRepos acc0.id repos
                     (saveAccount st { acc0 with syncInProgress := true }).events))
                 { acc0 with syncInProgress := true, lastSyncError := "" },
               Except.ok ()) := by
            unfold syncActivityDockerService
            rw [hfind]
            simp only [markRunning, henv, hlog, hrep]
          have hsome2 : (findAccountById
              (ServerState.mk
                (saveAccount st { acc0 with syncInProgress := true }).accounts
                (processRepos acc0.id repos
                  (saveAccount st { acc0 with syncInProgress := true }).events))
              accountID).isSome = true := hsome1
          have hfindF := findAccountById_finishSync
            (ServerState.mk
              (saveAccount st { acc0 with syncInProgress := true }).accounts
              (processRepos acc0.id repos
                (saveAccount st { acc0 with syncInProgress := true }).events))
            { acc0 with syncInProgress := true, lastSyncError := "" }
            accountID env.now hid0 hsome2
          refine ⟨?_, ?_, ?_, ?_, ?_, ?_⟩
          · simp only [hrun]; rw [hfindF]; rfl
          · simp only [hrun]; rw [hfindF]; rfl
          · intro _
            simp only [hrun]; rw [hfindF]; rfl
          · intro hnone
            exact Option.noConfusion hnone
          · intro pat2 hsome2b hlog2
            have hpp : pat = pat2 := Option.some.inj hsome2b
            rw [← hpp, hlog] at hlog2
            exact Option.noConfusion hlog2
          · intro pat2 tok e2 hsome2b hlog2 hrep2
            have hpp : pat = pat2 := Option.some.inj hsome2b
            have htt : token = tok := by
              rw [← hpp, hlog] at hlog2
              exact Option.some.inj hlog2
            rw [← htt, hrep] at hrep2
            exact Except.noConfusion hrep2
  · intro env
    rcases hrep : env.reposResult (decryptedToken env.decryptResult) with e | repos
    · have hrun : syncActivityHeatmap env accountID st =
          (finishSync env.now (saveAccount st { acc0 with syncInProgress := true })
             { acc0 with syncInProgress := true, lastSyncError := e },
           Except.error e) := by
        unfold syncActivityHeatmap syncBodyHeatmap
        rw [hfind]
        simp only [markRunning, hrep]
      have hfindF := findAccountById_finishSync
        (saveAccount st { acc0 with syncInProgress := true })
        { acc0 with syncInProgress := true, lastSyncError := e }
        accountID env.now hid0 hsome1
      refine ⟨?_, ?_, ?_, ?_⟩
      · simp only [hrun]; rw [hfindF]; rfl
      · simp only [hrun]; rw [hfindF]; rfl
      · intro hok
        simp only [hrun] at hok
        exact Except.noConfusion hok
      · intro e2 hrep2
        have hee : e = e2 := by injection hrep2
        rw [← hee]
        simp only [hrun]; rw [hfindF]; rfl
    · by_cases hemp : repos.isEmpty
      · have hrun : syncActivityHeatmap env accountID st =
            (finishSync env.now (saveAccount st { acc0 with syncInProgress := true })
               { acc0 with syncInProgress := true, lastSyncError := "" },
             Except.ok ()) := by
          unfold syncActivityHeatmap syncBodyHeatmap
          rw [hfind]
          simp [markRunning, hrep, hemp]
        have hfindF := findAccountById_finishSync
          (saveAccount st { acc0 with syncInProgress := true })
          { acc0 with syncInProgress := true, lastSyncError := "" }
          accountID env.now hid0 hsome1
        refine ⟨?_, ?_, ?_, ?_⟩
        · simp only [hrun]; rw [hfindF]; rfl
        · simp only [hrun]; rw [hfindF]; rfl
        · intro _
          simp only [hrun]; rw [hfindF]; rfl
        · intro e2 hrep2
          exact Except.noConfusion hrep2
      · have hrun : syncActivityHeatmap env accountID st =
            (finishSync env.now
               (ServerState.mk
                 (saveAccount st { acc0 with syncInProgress := true }).accounts
                 (processRepos acc0.id repos
                   (saveAccount st { acc0 with syncInProgress := true }).events))
               { acc0 with syncInProgress := true, lastSyncError := "" },
             Except.ok ()) := by
          unfold syncActivityHeatmap syncBodyHeatmap
          rw [hfind]
          simp only [markRunning, hrep]
          rw [if_neg hemp]
        have hsome2 : (findAccountById
            (ServerState.mk
              (saveAccount st { acc0 with syncInProgress := true }).accounts
              (processRepos acc0.id repos
                (saveAccount st { acc0 with syncInProgress := true }).events))
            accountID).isSome = true := hsome1
        have hfindF := findAccountById_finishSync
          (ServerState.mk
            (saveAccount st { acc0 with syncInProgress := true }).accounts
            (processRepos acc0.id repos
              (saveAccount st { acc0 with syncInProgress := true }).events))
          { acc0 with syncInProgress := true, lastSyncError := "" }
          accountID env.now hid0 hsome2
        refine ⟨?_, ?_, ?_, ?_⟩
        · simp only [hrun]; rw [hfindF]; rfl
        · simp only [hrun]; rw [hfindF]; rfl
        · intro _
          simp only [hrun]; rw [hfindF]; rfl
        · intro e2 hrep2
          exact Except.noConfusion hrep2

/-- Witness for C7: a heatmap.go-variant run over the idle account with no
repositories exits with the flag cleared, the timestamp stamped and an empty
error. -/
theorem C7_amended_witness :
    (findAccountById (syncActivityHeatmap envNoRepos 1 stIdle).1 1).map
        (fun a => a.syncInProgress) = some false ∧
    (findAccountById (syncActivityHeatmap envNoRepos 1 stIdle).1 1).map
        (fun a => a.lastSyncAt) = some (some envNoRepos.now) ∧
    (findAccountById (syncActivityHeatmap envNoRepos 1 stIdle).1 1).map
        (fun a => a.lastSyncError) = some "" :=
  ⟨((C7_amended 1 stIdle accIdle rfl).2 envNoRepos).1,
   ((C7_amended 1 stIdle accIdle rfl).2 envNoRepos).2.1,
   ((C7_amended 1 stIdle accIdle rfl).2 envNoRepos).2.2.1 rfl⟩

/-- C8 as written is false on the docker_service.go variant: with the stored
credential undecryptable and the registry ready to answer an unauthenticated
repository listing, the run returns the decryption error immediately and
records no events — it aborts instead of proceeding with an empty
credential. -/
theorem C8_counterexample :
    envDecryptFail.reposResult "" =
      Except.ok [⟨"r", some ⟨19723, 3600⟩, Except.ok []⟩] ∧
    (syncActivityDockerService envDecryptFail 1 stIdle).2 =
      Except.error "cipher: decrypt failed" ∧
    (syncActivityDockerService envDecryptFail 1 stIdle).1.events = [] :=
  ⟨rfl, rfl, rfl⟩

/-- C8 amended: only the heatmap.go variant implements the degraded mode —
there a decryption failure makes the run behave exactly as if an empty
credential had been decrypted, the repository fetch is attempted with the
empty token and a successful unauthenticated listing completes the sync; the
docker_service.go variant instead aborts the run with the decryption
error. -/
theorem C8_amended :
    (∀ (env : SyncEnvB) (accountID : Nat) (st : ServerState),
        env.decryptResult = none →
        syncActivityHeatmap env accountID st =
          syncActivityHeatmap ⟨some "", env.reposResult, env.now⟩ accountID st) ∧
    (∀ (env : SyncEnvB) (accountID : Nat) (st : ServerState) (acc0 : DockerAccount)
        (repos : List RepoData),
        env.decryptResult = none → findAccountById st accountID = some acc0 →
        env.reposResult "" = Except.ok repos →
        (syncActivityHeatmap env accountID st).2 = Except.ok ()) ∧
    (∀ (env : SyncEnvA) (accountID : Nat) (st : ServerState) (acc0 : DockerAccount),
        env.decryptResult = none → findAccountById st accountID = some acc0 →
        (syncActivityDockerService env accountID st).2 =
          Except.error "cipher: decrypt failed") := by
  refine ⟨?_, ?_, ?_⟩
  · intro env accountID st henv
    obtain ⟨dr, rr, n⟩ := env
    simp only at henv
    subst henv
    rfl
  · intro env accountID st acc0 repos henv hfind hrep
    unfold syncActivityHeatmap syncBodyHeatmap
    rw [hfind]
    simp only [markRunning]
    have htok : decryptedToken env.decryptResult = "" := by
      rw [henv]
      rfl
    rw [htok, hrep]
    by_cases hemp : repos.isEmpty
    · simp [hemp]
    · simp [hemp]
  · intro env accountID st acc0 henv hfind
    unfold syncActivityDockerService
    rw [hfind, henv]

/-- Witness for C8: a heatmap.go-variant run with failed decryption and a
successful empty unauthenticated listing finishes with ok. -/
theorem C8_amended_witness :
    (syncActivityHeatmap envDecryptFailB 1 stIdle).2 = Except.ok () :=
  C8_amended.2.1 envDecryptFailB 1 stIdle accIdle [] rfl rfl rfl

theorem pushExtends_refl (db : List ActivityEvent) : pushExtends db db :=
  ⟨0, by simp⟩

theorem pushExtends_trans (d1 d2 d3 : List ActivityEvent)
    (h12 : pushExtends d1 d2) (h23 : pushExtends d2 d3) : pushExtends d1 d3 := by
  obtain ⟨k1, h1⟩ := h12
  obtain ⟨k2, h2⟩ := h23
  refine ⟨k1 + k2, ?_⟩
  rw [h2, h1, List.append_assoc, ← List.replicate_add]

theorem createActivity_pushExtends (db : List ActivityEvent) (accountID : Nat)
    (t : UTCTime) (r tg : String) :
    pushExtends db (createActivity db accountID EventType.push t r tg).1 := by
  rcases hf : db.find? (keyMatch accountID t.day r tg) with _ | e
  · rw [createActivity_of_not_found db accountID EventType.push t r tg hf]
    exact ⟨1, by simp⟩
  · rw [createActivity_of_found db accountID EventType.push t r tg (by rw [hf]; rfl)]
    exact ⟨0, by simp [incrementFirst_map_eventType]⟩

theorem processTags_pushExtends (accountID : Nat) (rn : String) (tags : List TagData) :
    ∀ db, pushExtends db (processTags accountID rn tags db) := by
  induction tags with
  | nil => intro db; exact pushExtends_refl db
  | cons tg tgs ih =>
    intro db
    have hstep : pushExtends db
        (match tg.tagLastPushed with
         | some t => (createActivity db accountID EventType.push t rn tg.name).1
         | none => db) := by
      rcases tg.tagLastPushed with _ | t
      · exact pushExtends_refl db
      · exact createActivity_pushExtends db accountID t rn tg.name
    exact pushExtends_trans _ _ _ hstep (ih _)

theorem processRepo_pushExtends (accountID : Nat) (repo : RepoData)
    (db : List ActivityEvent) : pushExtends db (processRepo accountID repo db) := by
  have h1 : pushExtends db
      (match repo.lastUpdated with
       | some t => (createActivity db accountID EventType.push t repo.name "").1
       | none => db) := by
    rcases repo.lastUpdated with _ | t
    · exact pushExtends_refl db
    · exact createActivity_pushExtends db accountID t repo.name ""
  unfold processRepo
  rcases repo.tags with e | tags
  · exact h1
  · exact pushExtends_trans _ _ _ h1 (processTags_pushExtends accountID repo.name tags _)

theorem processRepos_pushExtends (accountID : Nat) (repos : List RepoData) :
    ∀ db, pushExtends db (processRepos accountID repos db) := by
  induction repos with
  | nil => intro db; exact pushExtends_refl db
  | cons r rs ih =>
    intro db
    exact pushExtends_trans _ _ _ (processRepo_pushExtends accountID r db) (ih _)

theorem pushExtends_replicate_len (d1 d2 : List ActivityEvent) (h : pushExtends d1 d2) :
    d2.map (fun e => e.eventType) =
      d1.map (fun e => e.eventType) ++
        List.replicate (d2.length - d1.length) EventType.push := by
  obtain ⟨k, hk⟩ := h
  have hlen : d2.length = d1.length + k := by
    have hl := congrArg List.length hk
    simpa using hl
  have hkk : d2.length - d1.length = k := by omega
  rw [hk, hkk]

theorem pullsOn_eq_zero (evs : List ActivityEvent) (d : Nat)
    (hall : ∀ e ∈ evs, e.eventType = EventType.push) : pullsOn evs d = 0 := by
  unfold pullsOn
  have hnil : evs.filter (fun e => e.eventDate == d && e.eventType == EventType.pull) = [] := by
    rw [List.filter_eq_nil_iff]
    intro e he
    simp [hall e he]
  rw [hnil]
  rfl

theorem buildsOn_eq_zero (evs : List ActivityEvent) (d : Nat)
    (hall : ∀ e ∈ evs, e.eventType = EventType.push) : buildsOn evs d = 0 := by
  unfold buildsOn
  have hnil : evs.filter (fun e => e.eventDate == d && e.eventType == EventType.build) = [] := by
    rw [List.filter_eq_nil_iff]
    intro e he
    simp [hall e he]
  rw [hnil]
  rfl

theorem mem_eventsInWindow (evs : List ActivityEvent) (accountID startDay today : Nat)
    (e : ActivityEvent) (he : e ∈ eventsInWindow evs accountID startDay today) :
    e ∈ evs :=
  (List.mem_filter.mp he).1

/-- C10: the sync loop only ever records push-kind events — the event table
after a repository pass is the old table (kinds unchanged) followed by some
number of fresh push rows — and over any push-only event table the JSON
totals for pulls and for builds are 0. -/
theorem C10_push_only :
    (∀ (accountID : Nat) (repos : List RepoData) (db : List ActivityEvent),
        (processRepos accountID repos db).map (fun e => e.eventType) =
          db.map (fun e => e.eventType) ++
            List.replicate ((processRepos accountID repos db).length - db.length)
              EventType.push) ∧
    (∀ (evs : List ActivityEvent) (accountID today days : Nat),
        (∀ e ∈ evs, e.eventType = EventType.push) →
        totalsPulls (GetActivitySummary evs accountID today days) = 0 ∧
        totalsBuilds (GetActivitySummary evs accountID today days) = 0) := by
  constructor
  · intro accountID repos db
    exact pushExtends_replicate_len db _ (processRepos_pushExtends accountID repos db)
  · intro evs accountID today days hall
    have hallwin : ∀ e ∈ eventsInWindow evs accountID (today - days) today,
        e.eventType = EventType.push :=
      fun e he => hall e (mem_eventsInWindow evs accountID (today - days) today e he)
    constructor
    · unfold totalsPulls GetActivitySummary
      rw [List.map_map]
      apply List.sum_eq_zero
      intro x hx
      rw [List.mem_map] at hx
      obtain ⟨i, _, hxi⟩ := hx
      rw [← hxi]
      show (summaryFor (eventsInWindow evs accountID (today - days) today) _ _).pulls = 0
      unfold summaryFor
      split
      · exact pullsOn_eq_zero _ _ hallwin
      · rfl
    · unfold totalsBuilds GetActivitySummary
      rw [List.map_map]
      apply List.sum_eq_zero
      intro x hx
      rw [List.mem_map] at hx
      obtain ⟨i, _, hxi⟩ := hx
      rw [← hxi]
      show (summaryFor (eventsInWindow evs accountID (today - days) today) _ _).builds = 0
      unfold summaryFor
      split
      · exact buildsOn_eq_zero _ _ hallwin
      · rfl

/-- Witness for C10 at one repository with one tag over an empty table, and
the scenario event set for the totals. -/
theorem C10_push_only_witness :
    (processRepos 1 [repoW] []).map (fun e => e.eventType) =
      ([] : List ActivityEvent).map (fun e => e.eventType) ++
        List.replicate ((processRepos 1 [repoW] []).length -
          ([] : List ActivityEvent).length) EventType.push ∧
    totalsPulls (GetActivitySummary evsC3 1 19725 2) = 0 ∧
    totalsBuilds (GetActivitySummary evsC3 1 19725 2) = 0 :=
  ⟨C10_push_only.1 1 [repoW] [],
   (C10_push_only.2 evsC3 1 19725 2 (by decide)).1,
   (C10_push_only.2 evsC3 1 19725 2 (by decide)).2⟩

end DockerHeatmap
